import Mathlib

set_option linter.unusedVariables false

/-!
Verification of the save-file decoding and transfer-compatibility subsystem of
the PokeTeamBuilder repository (files src/features/gba_support.py,
src/features/memory_card.py, src/trading/gba_trading.py).

Byte buffers are shallowly embedded as `List Nat` with every element < 256.
Little-endian / big-endian multi-byte reads, the PK3 XOR stream cipher, the
substructure permutation table, the section fold checksum, slot assembly and
selection, and the three transfer-compatibility checkers are translated
definition-by-definition from the Python source.  Human-readable reason
strings returned by the checkers are abstracted into an inductive tag type
(one constructor per distinct message site); no claim refers to the text of a
message, only to which branch produced it.
-/

-- ── Byte-buffer helpers (Python slicing and struct unpacking) ────────────────

/-- Python slice data[a:b] (for 0 ≤ a ≤ b; clamps at the end of the list). -/
def pySlice (l : List Nat) (a b : Nat) : List Nat :=
  (l.drop a).take (b - a)

/-- Little-endian 32-bit word from four bytes, as in struct.unpack of a u32 LE. -/
def word4 (b0 b1 b2 b3 : Nat) : Nat :=
  b0 + 256 * b1 + 65536 * b2 + 16777216 * b3

/-- The four little-endian bytes of a 32-bit word, as in struct.pack of u32 LE. -/
def unpack32 (w : Nat) : List Nat :=
  [w % 256, w / 256 % 256, w / 65536 % 256, w / 16777216 % 256]

/-- struct.unpack_from of a u16 LE at a byte offset (reads out-of-range bytes as 0;
every use site guards the offset the way the Python code guards it). -/
def le16at (l : List Nat) (off : Nat) : Nat :=
  l.getD off 0 + 256 * l.getD (off + 1) 0

/-- struct.unpack_from of a u32 LE at a byte offset. -/
def le32at (l : List Nat) (off : Nat) : Nat :=
  word4 (l.getD off 0) (l.getD (off + 1) 0) (l.getD (off + 2) 0) (l.getD (off + 3) 0)

/-- struct.unpack_from of a u16 big-endian at a byte offset (memory-card format). -/
def be16at (l : List Nat) (off : Nat) : Nat :=
  256 * l.getD off 0 + l.getD (off + 1) 0

-- ── Transfer compatibility (src/trading/gba_trading.py, src/features/gba_support.py) ──

/-- GBATransferDirection enum from gba_trading.py. -/
inductive GBATransferDirection
  | gba_to_gcn
  | gcn_to_gba
deriving DecidableEq

/-- TransferCompatibility enum from gba_support.py. -/
inductive TransferCompatibility
  | compatible
  | incompatible
  | requires_purify
  | version_locked
deriving DecidableEq

/-- Abstract tags for the distinct reason strings produced by the checkers. -/
inductive CompatReason
  | eggsCannotBeTransferred
  | shadowCannotBeTransferred
  | invalidSpecies
  | invalidLevel
  | evsExceedMax
  | compatibleOk
deriving DecidableEq

/-- GBACompatibilityChecker.check_gba_to_gcn from gba_trading.py (lines 162-191):
egg, then shadow, then species range, then level range, then EV total. -/
def check_gba_to_gcn (species_id : Nat) (is_shadow is_egg : Bool)
    (level total_evs : Nat) : Bool × CompatReason :=
  if is_egg then (false, .eggsCannotBeTransferred)
  else if is_shadow then (false, .shadowCannotBeTransferred)
  else if species_id = 0 ∨ species_id > 386 then (false, .invalidSpecies)
  else if level < 1 ∨ level > 100 then (false, .invalidLevel)
  else if total_evs > 510 then (false, .evsExceedMax)
  else (true, .compatibleOk)

/-- GBACompatibilityChecker.check_gcn_to_gba from gba_trading.py (lines 193-215):
shadow, then egg, then species range.  The level argument is accepted but never
checked, and there is no EV argument at all. -/
def check_gcn_to_gba (species_id : Nat) (is_shadow is_egg : Bool)
    (level : Nat) : Bool × CompatReason :=
  if is_shadow then (false, .shadowCannotBeTransferred)
  else if is_egg then (false, .eggsCannotBeTransferred)
  else if species_id = 0 ∨ species_id > 386 then (false, .invalidSpecies)
  else (true, .compatibleOk)

/-- The fields of the PK3Pokemon dataclass (gba_support.py) that are read by the
claims under verification.  The remaining fields (names, moves, IVs, contest
stats, ...) are not referenced by any claim and are omitted. -/
structure PK3Pokemon where
  personality_value : Nat
  species_id : Nat
  is_egg : Bool
  level : Nat
  hp_ev : Nat
  atk_ev : Nat
  def_ev : Nat
  spe_ev : Nat
  spa_ev : Nat
  spd_ev : Nat
deriving DecidableEq

/-- GBAToGCNTransfer.check_transfer_compatibility from gba_support.py
(lines 1262-1293): egg, then species range, then level range, then EV total.
It never inspects any shadow state (PK3Pokemon has no shadow field) and never
returns REQUIRES_PURIFY.  The target_game parameter is accepted but unread. -/
def check_transfer_compatibility (p : PK3Pokemon) : TransferCompatibility × CompatReason :=
  if p.is_egg then (.incompatible, .eggsCannotBeTransferred)
  else if p.species_id = 0 ∨ p.species_id > 386 then (.incompatible, .invalidSpecies)
  else if p.level > 100 ∨ p.level < 1 then (.incompatible, .invalidLevel)
  else if p.hp_ev + p.atk_ev + p.def_ev + p.spe_ev + p.spa_ev + p.spd_ev > 510
    then (.incompatible, .evsExceedMax)
  else (.compatible, .compatibleOk)

/-- The compatibility rule list exactly as the specification states it (C1):
egg, species range, shadow-with-direction (RequiresPurify), level range,
EV total, first match wins.  "The direction requires the non-shadow side" is
console-to-cartridge (gcn_to_gba), since only the console side holds shadow
records.  Written from the specification, for comparison with the code. -/
def claimC1Verdict (dir : GBATransferDirection) (is_egg is_shadow : Bool)
    (species level evSum : Nat) : TransferCompatibility :=
  if is_egg then .incompatible
  else if species < 1 ∨ 386 < species then .incompatible
  else if is_shadow ∧ dir = .gcn_to_gba then .requires_purify
  else if level < 1 ∨ 100 < level then .incompatible
  else if 510 < evSum then .incompatible
  else .compatible

/-- First-matching-rule evaluator: scans (condition, verdict) pairs in order and
returns the verdict of the first true condition, or the default. -/
def firstMatch {α : Type} : List (Bool × α) → α → α
  | [], d => d
  | (c, v) :: rest, d => if c then v else firstMatch rest d

/-- Amended rule cascade for check_gba_to_gcn, written as an explicit first-match
rule list: egg, shadow, species range, level range, EV total. -/
def amendedGbaToGcn (species_id : Nat) (is_shadow is_egg : Bool)
    (level total_evs : Nat) : Bool × CompatReason :=
  firstMatch
    [(is_egg, (false, .eggsCannotBeTransferred)),
     (is_shadow, (false, .shadowCannotBeTransferred)),
     (decide (species_id = 0 ∨ species_id > 386), (false, .invalidSpecies)),
     (decide (level < 1 ∨ level > 100), (false, .invalidLevel)),
     (decide (total_evs > 510), (false, .evsExceedMax))]
    (true, .compatibleOk)

/-- Amended rule cascade for check_gcn_to_gba: shadow, egg, species range, and
nothing else (no level rule, no EV rule). -/
def amendedGcnToGba (species_id : Nat) (is_shadow is_egg : Bool) : Bool × CompatReason :=
  firstMatch
    [(is_shadow, (false, .shadowCannotBeTransferred)),
     (is_egg, (false, .eggsCannotBeTransferred)),
     (decide (species_id = 0 ∨ species_id > 386), (false, .invalidSpecies))]
    (true, .compatibleOk)

/-- Amended rule cascade for check_transfer_compatibility: egg, species range,
level range, EV total; no shadow rule, never RequiresPurify. -/
def amendedRecordCheck (p : PK3Pokemon) : TransferCompatibility × CompatReason :=
  firstMatch
    [(p.is_egg, (.incompatible, .eggsCannotBeTransferred)),
     (decide (p.species_id = 0 ∨ p.species_id > 386), (.incompatible, .invalidSpecies)),
     (decide (p.level > 100 ∨ p.level < 1), (.incompatible, .invalidLevel)),
     (decide (p.hp_ev + p.atk_ev + p.def_ev + p.spe_ev + p.spa_ev + p.spd_ev > 510),
       (.incompatible, .evsExceedMax))]
    (.compatible, .compatibleOk)

-- ── PK3 record codec (src/features/gba_support.py) ───────────────────────────

/-- SUBSTRUCTURE_ORDER table from gba_support.py (lines 118-123): the 24
four-letter orderings of Growth / Attacks / EVs-Condition / Misc, indexed by
personality value mod 24.  The Python 4-character strings are embedded as
4-element character lists. -/
def SUBSTRUCTURE_ORDER : List (List Char) :=
  [['G','A','E','M'], ['G','A','M','E'], ['G','E','A','M'], ['G','E','M','A'],
   ['G','M','A','E'], ['G','M','E','A'],
   ['A','G','E','M'], ['A','G','M','E'], ['A','E','G','M'], ['A','E','M','G'],
   ['A','M','G','E'], ['A','M','E','G'],
   ['E','G','A','M'], ['E','G','M','A'], ['E','A','G','M'], ['E','A','M','G'],
   ['E','M','G','A'], ['E','M','A','G'],
   ['M','G','A','E'], ['M','G','E','A'], ['M','A','G','E'], ['M','A','E','G'],
   ['M','E','G','A'], ['M','E','A','G']]

/-- SUBSTRUCTURE_ORDER[personality_value % 24] from _parse_pk3. -/
def substructure_entry (pv : Nat) : List Char :=
  SUBSTRUCTURE_ORDER.getD (pv % 24) []

/-- The sub_map built in _parse_pk3: substructure letter L is assigned the
12-byte block at the position where L occurs in the order entry
(decrypted[i*12:(i+1)*12]); a letter absent from the entry falls back to
bytes(12), mirroring sub_map.get(letter, bytes(12)). -/
def sub_block (dec : List Nat) (ord : List Char) (L : Char) : List Nat :=
  if L ∈ ord then pySlice dec (12 * ord.indexOf L) (12 * ord.indexOf L + 12)
  else List.replicate 12 0

/-- GBASaveParser._decrypt_pk3_data (lines 1170-1179): XOR every 32-bit
little-endian word with the single key; a trailing chunk shorter than 4 bytes
is skipped by the loop and left as the zero bytes of the preallocated output
bytearray. -/
def decrypt_pk3_data : List Nat → Nat → List Nat
  | b0 :: b1 :: b2 :: b3 :: rest, key =>
      unpack32 (word4 b0 b1 b2 b3 ^^^ key) ++ decrypt_pk3_data rest key
  | rest, _ => rest.map fun _ => 0

/-- Integer cube root clamped for GBASaveParser._exp_to_level.  The source uses
the float expression int(experience ** (1/3)); since the result is immediately
clamped to [1,100], this integer version agrees except for float-rounding at
perfect-cube boundaries.  No claim under verification reads a level produced
by this path. -/
def natCubeRoot (n : Nat) : Nat :=
  ((List.range 102).filter fun l => l * l * l ≤ n).length - 1

/-- GBASaveParser._exp_to_level: 1 for zero experience, else the cube-root
level clamped to [1,100]. -/
def exp_to_level (species_id experience : Nat) : Nat :=
  if experience = 0 then 1 else max 1 (min 100 (natCubeRoot experience))

/-- The species id decoded by _parse_pk3: little-endian u16 at offset 0 of the
Growth substructure of the decrypted payload. -/
def pk3_species (data : List Nat) : Nat :=
  le16at (sub_block
    (decrypt_pk3_data (pySlice data 32 80) (le32at data 0 ^^^ le32at data 4))
    (substructure_entry (le32at data 0)) 'G') 0

/-- GBASaveParser._parse_pk3 (lines 985-1168): reject a buffer shorter than the
32-byte header or shorter than header+payload (80 bytes); decrypt the 48-byte
payload with key = personality value XOR combined owner-id word; reorder
substructures by the personality-mod-24 table entry; reject species id 0 or
above 386; otherwise produce the record.  Fields not referenced by any claim
(names, moves, IVs, contest stats, markings, shininess, gender, ...) are
omitted from the result structure; every rejection path is preserved. -/
def parse_pk3 (data : List Nat) : Option PK3Pokemon :=
  if data.length < 32 then none
  else if data.length < 32 + 48 then none
  else
    let pv := le32at data 0
    let otFull := le32at data 4
    let key := pv ^^^ otFull
    let dec := decrypt_pk3_data (pySlice data 32 80) key
    let ord := substructure_entry pv
    let g := sub_block dec ord 'G'
    let species_id := le16at g 0
    let experience := le32at g 4
    if species_id = 0 ∨ species_id > 386 then none
    else
      let e := sub_block dec ord 'E'
      let m := sub_block dec ord 'M'
      let iv_egg_ability := le32at m 4
      let level := if 80 + 20 ≤ data.length then (pySlice data 80 100).getD 4 0
                   else exp_to_level species_id experience
      some { personality_value := pv, species_id := species_id,
             is_egg := (iv_egg_ability >>> 30) &&& 1 == 1,
             level := level,
             hp_ev := e.getD 0 0, atk_ev := e.getD 1 0, def_ev := e.getD 2 0,
             spe_ev := e.getD 3 0, spa_ev := e.getD 4 0, spd_ev := e.getD 5 0 }

-- ── Memory-card record codec (src/features/memory_card.py) ───────────────────

/-- The fields of the SavedPokemon dataclass read by the claims; the rest
(nickname, nature, IVs, moves, ...) are not referenced by any claim. -/
structure SavedPokemon where
  species_id : Nat
  level : Nat
  is_shadow : Bool
deriving DecidableEq

/-- GCIParser._parse_pokemon (lines 464-493): reject a buffer shorter than
0x50 bytes; read species id as big-endian u16 at offset 0; reject species id 0
or above 386; otherwise produce the record (level byte clamped to [1,100],
shadow flag from the byte at 0x10). -/
def parse_pokemon_mc (data : List Nat) : Option SavedPokemon :=
  if data.length < 0x50 then none
  else
    let sid := be16at data 0
    if sid = 0 ∨ sid > 386 then none
    else
      some { species_id := sid,
             level := max 1 (min 100 (if 4 < data.length then data.getD 4 0 else 1)),
             is_shadow := if 0x10 < data.length then data.getD 0x10 0 != 0 else false }

-- ── Section checksum and slot assembly (src/features/gba_support.py) ─────────

/-- The running total of _verify_section_checksum: sum of all complete 32-bit
little-endian words (the loop skips a trailing chunk shorter than 4 bytes). -/
def checksum_total : List Nat → Nat
  | b0 :: b1 :: b2 :: b3 :: rest => word4 b0 b1 b2 b3 + checksum_total rest
  | _ => 0

/-- The 16-bit fold from _verify_section_checksum:
((total >> 16) + (total & 0xFFFF)) & 0xFFFF. -/
def fold16 (t : Nat) : Nat :=
  ((t >>> 16) + (t &&& 0xFFFF)) &&& 0xFFFF

/-- The checksum _verify_section_checksum recomputes over the first 0xFF8 bytes
(the data area) of a section. -/
def compute_section_checksum (sec : List Nat) : Nat :=
  fold16 (checksum_total (sec.take 0xFF8))

/-- GBASaveParser._verify_section_checksum (lines 734-749): true iff the
recomputed fold checksum equals the stored u16 at offset 0xFFA; a buffer too
short for the stored-checksum read raises struct.error, caught as false. -/
def verify_section_checksum (sec : List Nat) : Bool :=
  if 0xFFA + 2 ≤ sec.length then
    compute_section_checksum sec == le16at sec 0xFFA
  else false

/-- Python dict assignment sections[k] = v on an association list: any previous
binding of k is replaced. -/
def dictInsert (m : List (Nat × List Nat)) (k : Nat) (v : List Nat) :
    List (Nat × List Nat) :=
  (m.filter fun q => q.1 != k) ++ [(k, v)]

/-- Python dict lookup sections.get(k). -/
def dictLookup (m : List (Nat × List Nat)) (k : Nat) : Option (List Nat) :=
  (m.find? fun q => q.1 == k).map Prod.snd

/-- The section loop of GBASaveParser._parse_slot (lines 708-732): for each of
the 14 section windows, stop at the first window that overruns the buffer;
read the footer id at 0xFF8 and skip the section if the id exceeds 13; verify
the checksum (the result is only logged, never used to discard); store the
section bytes under the id. -/
def slotLoop (data : List Nat) (offset : Nat) :
    Nat → Nat → List (Nat × List Nat) → List (Nat × List Nat)
  | 0, _, acc => acc
  | n + 1, i, acc =>
      let start := offset + i * 4096
      if start + 4096 ≤ data.length then
        let sec := pySlice data start (start + 4096)
        let sid := le16at sec 0xFF8
        if sid > 13 then slotLoop data offset n (i + 1) acc
        else
          let _flag := verify_section_checksum sec
          slotLoop data offset n (i + 1) (dictInsert acc sid sec)
      else acc

/-- GBASaveParser._parse_slot: assemble the section map of one slot; an empty
map means the slot is invalid (None). -/
def parse_slot (data : List Nat) (offset : Nat) : Option (List (Nat × List Nat)) :=
  let s := slotLoop data offset 14 0 []
  if s.isEmpty then none else some s

/-- GBASaveParser._get_save_index (lines 751-758): the u32 save index at offset
0xFFC of section 0, or -1 when section 0 is missing or too short for the read
(struct.error). -/
def get_save_index (sections : List (Nat × List Nat)) : Int :=
  match dictLookup sections 0 with
  | none => -1
  | some sec => if 0xFFC + 4 ≤ sec.length then (le32at sec 0xFFC : Int) else -1

/-- GBASaveParser._pick_best_slot (lines 760-774): None only when both slots
are None; a single valid slot is used as is; with two valid slots the one with
the higher save index wins, slot A on a tie (idx_a >= idx_b keeps slot A). -/
def pick_best_slot (slot_a slot_b : Option (List (Nat × List Nat))) :
    Option (List (Nat × List Nat)) :=
  match slot_a, slot_b with
  | none, none => none
  | none, some b => some b
  | some a, none => some a
  | some a, some b => if get_save_index b ≤ get_save_index a then some a else some b

-- ── Party extraction and whole-file parse (src/features/gba_support.py) ──────

/-- The record loop of GBASaveParser._parse_party: up to the clamped count,
100-byte windows at stride 100 from base offset 0x238; a window overrunning
the section breaks the loop; a decoded record is kept only when decoding
succeeded and its species id is positive. -/
def partyLoop (sec : List Nat) : Nat → Nat → List PK3Pokemon
  | 0, _ => []
  | n + 1, i =>
      let off := 0x238 + i * 100
      if off + 100 ≤ sec.length then
        match parse_pk3 (pySlice sec off (off + 100)) with
        | some p =>
            if p.species_id > 0 then p :: partyLoop sec n (i + 1)
            else partyLoop sec n (i + 1)
        | none => partyLoop sec n (i + 1)
      else []

/-- The body of GBASaveParser._parse_party (lines 914-936) applied to the
section-1 buffer: read the u32 count at 0x234 (struct.error on a buffer too
short for the read yields an empty party), clamp it with max(0, min(6, count)),
then run the record loop. -/
def parse_party_sec (sec : List Nat) : List PK3Pokemon :=
  if 0x234 + 4 ≤ sec.length then
    partyLoop sec (max 0 (min 6 (le32at sec 0x234))) 0
  else []

/-- GBASaveParser._parse_party on the section map: empty when section 1 is
absent, else decode from the section-1 buffer. -/
def parse_party (sections : List (Nat × List Nat)) : List PK3Pokemon :=
  match dictLookup sections 1 with
  | none => []
  | some sec => parse_party_sec sec

/-- The trainer-info fields read by the claims; GBASaveParser._parse_trainer_info
returns None when section 0 is absent or shorter than the 0x12 bytes its
unguarded reads need (struct.error / IndexError); the string, play-time,
money, badge and game-detection fields are not referenced by any claim and are
omitted. -/
structure GBATrainerInfo where
  trainer_id : Nat
  secret_id : Nat
deriving DecidableEq

/-- GBASaveParser._parse_trainer_info, restricted to the fields above. -/
def parse_trainer_info (sections : List (Nat × List Nat)) : Option GBATrainerInfo :=
  match dictLookup sections 0 with
  | none => none
  | some sec =>
      if 0x12 ≤ sec.length then
        some { trainer_id := le16at sec 0x0A, secret_id := le16at sec 0x0C }
      else none

/-- The parse result of GBASaveParser.parse_save_file for the parts the claims
reference (the PC-box extraction is not referenced by any claim and omitted). -/
structure GBASaveModel where
  info : GBATrainerInfo
  sections : List (Nat × List Nat)
  party : List PK3Pokemon
deriving DecidableEq

/-- The data-level logic of GBASaveParser.parse_save_file (lines 658-706),
after the file has been read: fail on a buffer below one slot size; parse the
offset-0 slot, and the offset-0xE000 slot only when the buffer holds two
slots; fail (NoValidSlot) when slot selection yields nothing; fail when
trainer info cannot be parsed; otherwise return the model. -/
def parse_save_data (data : List Nat) : Option GBASaveModel :=
  if data.length < 0xE000 then none
  else
    let slot_a := parse_slot data 0
    let slot_b := if 0x20000 ≤ data.length then parse_slot data 0xE000 else none
    match pick_best_slot slot_a slot_b with
    | none => none
    | some sections =>
        match parse_trainer_info sections with
        | none => none
        | some info =>
            some { info := info, sections := sections, party := parse_party sections }

/-- A slot has a readable section-0 save index: section 0 is present and long
enough for the u32 read at 0xFFC (sections produced by _parse_slot are always
4096 bytes, but _get_save_index itself guards both conditions). -/
def section0Readable (m : List (Nat × List Nat)) : Prop :=
  ∃ se, dictLookup m 0 = some se ∧ 0x1000 ≤ se.length

-- ── Concrete buffers used to instantiate the theorems ────────────────────────

/-- An 80-byte PK3 buffer with personality value 0 and owner word 0 (key 0,
order GAEM) whose decrypted Growth block starts with the bytes 0x82 0x01,
species id 386. -/
def data386 : List Nat := List.replicate 32 0 ++ [0x82, 0x01] ++ List.replicate 46 0

/-- Like data386 but species id 387 (bytes 0x83 0x01). -/
def data387 : List Nat := List.replicate 32 0 ++ [0x83, 0x01] ++ List.replicate 46 0

/-- An all-zero 80-byte PK3 buffer: species id decodes to 0. -/
def dataSpecies0 : List Nat := List.replicate 80 0

/-- A 0x50-byte memory-card record buffer with big-endian species id 386. -/
def mc386 : List Nat := [0x01, 0x82] ++ List.replicate 78 0

/-- A 0x50-byte memory-card record buffer with big-endian species id 387. -/
def mc387 : List Nat := [0x01, 0x83] ++ List.replicate 78 0

/-- A section-1 buffer with stored party count 9 and room for exactly one
100-byte record window, holding a record of species 1. -/
def sec9 : List Nat :=
  List.replicate 0x234 0 ++ [9, 0, 0, 0] ++
    (List.replicate 32 0 ++ [1] ++ List.replicate 67 0)

/-- The record parse_pk3 decodes from the single window of sec9. -/
def p9 : PK3Pokemon :=
  { personality_value := 0, species_id := 1, is_egg := false, level := 0,
    hp_ev := 0, atk_ev := 0, def_ev := 0, spe_ev := 0, spa_ev := 0, spd_ev := 0 }

/-- A 4096-byte save image holding a single section: footer id 0 at 0xFF8,
stored checksum 0xABCD at 0xFFA (mismatching the recomputed 0 of the all-zero
data area), save index 7 at 0xFFC. -/
def d0sec : List Nat := List.replicate 4088 0 ++ [0, 0, 0xCD, 0xAB, 7, 0, 0, 0]

/-- A 4096-byte section whose save-index field (offset 0xFFC) holds 3. -/
def secIdx3 : List Nat := List.replicate 4092 0 ++ [3, 0, 0, 0]

/-- A 4096-byte section whose save-index field holds 7. -/
def secIdx7 : List Nat := List.replicate 4092 0 ++ [7, 0, 0, 0]

/-- A 4096-byte section (different bytes from secIdx3) whose save-index field
also holds 3. -/
def secIdx3b : List Nat := List.replicate 4092 1 ++ [3, 0, 0, 0]

/-- Slot maps for the slot-selection witnesses. -/
def slotIdx3 : List (Nat × List Nat) := [(0, secIdx3)]

def slotIdx7 : List (Nat × List Nat) := [(0, secIdx7)]

def slotIdx3b : List (Nat × List Nat) := [(0, secIdx3b)]

/-- A slot map with no section 0: its save index is unreadable. -/
def slotNoZero : List (Nat × List Nat) := [(1, [])]

/-- A slot map whose section 0 is too short for the save-index read. -/
def slotShortZero : List (Nat × List Nat) := [(0, [1, 2, 3])]

/-- C1 counterexample: the console-to-cartridge checker ignores the level rule.
A non-shadow, non-egg record with valid species 25 and level 0 is accepted by
check_gcn_to_gba, while the claimed rule list classifies it Incompatible
(level outside [1,100]).  Moreover no checker ever produces RequiresPurify:
a shadow record on the console-to-cartridge direction is rejected with a plain
boolean false rather than the claimed RequiresPurify verdict. -/
theorem c1_counterexample :
    check_gcn_to_gba 25 false false 0 = (true, .compatibleOk) ∧
    claimC1Verdict .gcn_to_gba false false 25 0 0 = .incompatible ∧
    check_gcn_to_gba 25 true false 50 = (false, .shadowCannotBeTransferred) ∧
    claimC1Verdict .gcn_to_gba false true 25 50 0 = .requires_purify := by
  refine ⟨?_, ?_, ?_, ?_⟩ <;> decide

/-- C1 (amended): each of the three compatibility functions is a first-match
cascade, but with these rule lists: cartridge-to-console checks egg, shadow,
species, level, EVs in that order and returns boolean verdicts (shadow is
rejected, not marked RequiresPurify); console-to-cartridge checks shadow, egg,
species only (no level or EV rule); the record-level evaluator checks egg,
species, level, EVs with Incompatible verdicts and has no shadow rule. -/
theorem c1_amended :
    (∀ (s : Nat) (sh eg : Bool) (lv ev : Nat),
      check_gba_to_gcn s sh eg lv ev = amendedGbaToGcn s sh eg lv ev) ∧
    (∀ (s : Nat) (sh eg : Bool) (lv : Nat),
      check_gcn_to_gba s sh eg lv = amendedGcnToGba s sh eg) ∧
    (∀ p : PK3Pokemon, check_transfer_compatibility p = amendedRecordCheck p) := by
  refine ⟨fun s sh eg lv ev => ?_, fun s sh eg lv => ?_, fun p => ?_⟩ <;>
    simp only [check_gba_to_gcn, check_gcn_to_gba, check_transfer_compatibility,
      amendedGbaToGcn, amendedGcnToGba, amendedRecordCheck, firstMatch,
      decide_eq_true_eq]

-- ── Helper lemmas on bytes and words ─────────────────────────────────────────

theorem getD_lt_256 {l : List Nat} (hb : ∀ b ∈ l, b < 256) (i : Nat) :
    l.getD i 0 < 256 := by
  rcases lt_or_le i l.length with h | h
  · rw [List.getD_eq_getElem l 0 h]
    exact hb _ (List.getElem_mem h)
  · rw [List.getD_eq_default l 0 h]
    norm_num

theorem word4_lt {b0 b1 b2 b3 : Nat} (h0 : b0 < 256) (h1 : b1 < 256)
    (h2 : b2 < 256) (h3 : b3 < 256) : word4 b0 b1 b2 b3 < 4294967296 := by
  unfold word4
  omega

theorem le32at_lt {l : List Nat} (hb : ∀ b ∈ l, b < 256) (off : Nat) :
    le32at l off < 4294967296 := by
  unfold le32at
  exact word4_lt (getD_lt_256 hb off) (getD_lt_256 hb (off + 1))
    (getD_lt_256 hb (off + 2)) (getD_lt_256 hb (off + 3))

theorem word4_unpack32_self {w : Nat} (h : w < 4294967296) :
    word4 (w % 256) (w / 256 % 256) (w / 65536 % 256) (w / 16777216 % 256) = w := by
  unfold word4
  omega

theorem unpack32_word4_self {b0 b1 b2 b3 : Nat} (h0 : b0 < 256) (h1 : b1 < 256)
    (h2 : b2 < 256) (h3 : b3 < 256) :
    unpack32 (word4 b0 b1 b2 b3) = [b0, b1, b2, b3] := by
  simp only [unpack32, word4, List.cons.injEq, and_true]
  refine ⟨?_, ?_, ?_, ?_⟩ <;> omega

theorem pySlice_bytes {l : List Nat} (hb : ∀ b ∈ l, b < 256) (a b' : Nat) :
    ∀ x ∈ pySlice l a b', x < 256 :=
  fun x hx => hb x (List.mem_of_mem_drop (List.mem_of_mem_take hx))

theorem pySlice_length (l : List Nat) (a b : Nat) :
    (pySlice l a b).length = min (b - a) (l.length - a) := by
  simp [pySlice]

theorem le32at_cons_succ (a : Nat) (l : List Nat) (n : Nat) :
    le32at (a :: l) (n + 1) = le32at l n := rfl

-- ── C2: the PK3 XOR stream cipher ────────────────────────────────────────────

theorem decrypt_first_word {b0 b1 b2 b3 : Nat} (rest : List Nat) (key : Nat)
    (h0 : b0 < 256) (h1 : b1 < 256) (h2 : b2 < 256) (h3 : b3 < 256)
    (hk : key < 4294967296) :
    decrypt_pk3_data (b0 :: b1 :: b2 :: b3 :: rest) key =
      unpack32 (word4 b0 b1 b2 b3 ^^^ key) ++ decrypt_pk3_data rest key := rfl

theorem decrypt_involutive_aux :
    ∀ (n : Nat) (l : List Nat) (key : Nat), l.length = 4 * n →
      (∀ b ∈ l, b < 256) → key < 4294967296 →
      decrypt_pk3_data (decrypt_pk3_data l key) key = l := by
  intro n
  induction n with
  | zero =>
    intro l key hl hb hk
    have : l = [] := List.eq_nil_of_length_eq_zero (by omega)
    subst this
    rfl
  | succ m ih =>
    intro l key hl hb hk
    match l, hl with
    | b0 :: b1 :: b2 :: b3 :: rest, hl =>
      have h0 : b0 < 256 := hb _ (by simp)
      have h1 : b1 < 256 := hb _ (by simp)
      have h2 : b2 < 256 := hb _ (by simp)
      have h3 : b3 < 256 := hb _ (by simp)
      have hw : word4 b0 b1 b2 b3 < 4294967296 := word4_lt h0 h1 h2 h3
      have h32 : (4294967296 : Nat) = 2 ^ 32 := by norm_num
      have hxlt : word4 b0 b1 b2 b3 ^^^ key < 4294967296 := by
        rw [h32] at hw hk ⊢
        exact Nat.xor_lt_two_pow hw hk
      have hrest : decrypt_pk3_data (decrypt_pk3_data rest key) key = rest := by
        refine ih rest key ?_ (fun b hbm => hb b (by simp [hbm])) hk
        simp only [List.length_cons] at hl
        omega
      calc decrypt_pk3_data (decrypt_pk3_data (b0 :: b1 :: b2 :: b3 :: rest) key) key
          = decrypt_pk3_data
              (unpack32 (word4 b0 b1 b2 b3 ^^^ key) ++ decrypt_pk3_data rest key) key := rfl
        _ = unpack32 (word4 ((word4 b0 b1 b2 b3 ^^^ key) % 256)
              ((word4 b0 b1 b2 b3 ^^^ key) / 256 % 256)
              ((word4 b0 b1 b2 b3 ^^^ key) / 65536 % 256)
              ((word4 b0 b1 b2 b3 ^^^ key) / 16777216 % 256) ^^^ key) ++
              decrypt_pk3_data (decrypt_pk3_data rest key) key := rfl
        _ = unpack32 ((word4 b0 b1 b2 b3 ^^^ key) ^^^ key) ++ rest := by
              rw [word4_unpack32_self hxlt, hrest]
        _ = unpack32 (word4 b0 b1 b2 b3) ++ rest := by
              rw [Nat.xor_cancel_right]
        _ = b0 :: b1 :: b2 :: b3 :: rest := by
              rw [unpack32_word4_self h0 h1 h2 h3]
              rfl

theorem le32at_cons4 (a b c d : Nat) (l : List Nat) (j : Nat) :
    le32at (a :: b :: c :: d :: l) (4 * j + 4) = le32at l (4 * j) := rfl

theorem decrypt_word_aux :
    ∀ (j : Nat) (l : List Nat) (key : Nat), (∀ b ∈ l, b < 256) →
      key < 4294967296 → 4 * j + 4 ≤ l.length →
      le32at (decrypt_pk3_data l key) (4 * j) = le32at l (4 * j) ^^^ key := by
  intro j
  induction j with
  | zero =>
    intro l key hb hk hlen
    match l, hlen with
    | b0 :: b1 :: b2 :: b3 :: rest, _ =>
      have hw : word4 b0 b1 b2 b3 < 4294967296 :=
        word4_lt (hb _ (by simp)) (hb _ (by simp)) (hb _ (by simp)) (hb _ (by simp))
      have h32 : (4294967296 : Nat) = 2 ^ 32 := by norm_num
      have hxlt : word4 b0 b1 b2 b3 ^^^ key < 4294967296 := by
        rw [h32] at hw hk ⊢
        exact Nat.xor_lt_two_pow hw hk
      calc le32at (decrypt_pk3_data (b0 :: b1 :: b2 :: b3 :: rest) key) (4 * 0)
          = word4 ((word4 b0 b1 b2 b3 ^^^ key) % 256)
              ((word4 b0 b1 b2 b3 ^^^ key) / 256 % 256)
              ((word4 b0 b1 b2 b3 ^^^ key) / 65536 % 256)
              ((word4 b0 b1 b2 b3 ^^^ key) / 16777216 % 256) := rfl
        _ = word4 b0 b1 b2 b3 ^^^ key := word4_unpack32_self hxlt
        _ = le32at (b0 :: b1 :: b2 :: b3 :: rest) (4 * 0) ^^^ key := rfl
  | succ m ih =>
    intro l key hb hk hlen
    match l, hlen with
    | b0 :: b1 :: b2 :: b3 :: rest, hlen =>
      have hrest : le32at (decrypt_pk3_data rest key) (4 * m) =
          le32at rest (4 * m) ^^^ key := by
        refine ih rest key (fun b hbm => hb b (by simp [hbm])) hk ?_
        simp only [List.length_cons] at hlen
        omega
      calc le32at (decrypt_pk3_data (b0 :: b1 :: b2 :: b3 :: rest) key) (4 * (m + 1))
          = le32at (decrypt_pk3_data rest key) (4 * m) := rfl
        _ = le32at rest (4 * m) ^^^ key := hrest
        _ = le32at (b0 :: b1 :: b2 :: b3 :: rest) (4 * (m + 1)) ^^^ key := rfl

/-- C2: in _parse_pk3 the decryption key is the personality value (u32 LE at
offset 0) XOR the combined owner-id word (u32 LE at offset 4); _decrypt_pk3_data
XORs every one of the twelve 32-bit little-endian words of the 48-byte payload
with that single key; and applying the decryption to its own output with the
same key restores the original 48 payload bytes exactly. -/
theorem c2_decrypt_roundtrip (data : List Nat) (hlen : 80 ≤ data.length)
    (hb : ∀ b ∈ data, b < 256) :
    (∀ j < 12,
      le32at (decrypt_pk3_data (pySlice data 32 80) (le32at data 0 ^^^ le32at data 4)) (4 * j)
        = le32at (pySlice data 32 80) (4 * j) ^^^ (le32at data 0 ^^^ le32at data 4)) ∧
    decrypt_pk3_data
        (decrypt_pk3_data (pySlice data 32 80) (le32at data 0 ^^^ le32at data 4))
        (le32at data 0 ^^^ le32at data 4) = pySlice data 32 80 := by
  have h32 : (4294967296 : Nat) = 2 ^ 32 := by norm_num
  have hkey : le32at data 0 ^^^ le32at data 4 < 4294967296 := by
    rw [h32]
    exact Nat.xor_lt_two_pow (h32 ▸ le32at_lt hb 0) (h32 ▸ le32at_lt hb 4)
  have hencb := pySlice_bytes hb 32 80
  have henclen : (pySlice data 32 80).length = 48 := by
    rw [pySlice_length]
    omega
  constructor
  · intro j hj
    exact decrypt_word_aux j _ _ hencb hkey (by omega)
  · exact decrypt_involutive_aux 12 _ _ (by omega) hencb hkey

/-- Witness for C2 at the concrete buffer data386. -/
theorem c2_witness :
    decrypt_pk3_data
        (decrypt_pk3_data (pySlice data386 32 80) (le32at data386 0 ^^^ le32at data386 4))
        (le32at data386 0 ^^^ le32at data386 4) = pySlice data386 32 80 ∧
    le32at (decrypt_pk3_data (pySlice data386 32 80)
        (le32at data386 0 ^^^ le32at data386 4)) (4 * 3)
      = le32at (pySlice data386 32 80) (4 * 3) ^^^ (le32at data386 0 ^^^ le32at data386 4) :=
  ⟨(c2_decrypt_roundtrip data386 (by decide) (by decide)).2,
   (c2_decrypt_roundtrip data386 (by decide) (by decide)).1 3 (by norm_num)⟩

-- ── C4: record produced iff species id in [1,386] ────────────────────────────

/-- C4: for both record codecs, a buffer long enough to reach the species field
(80 bytes for the cartridge codec, 0x50 bytes for the memory-card codec)
produces a record if and only if the decoded species id lies in [1,386]. -/
theorem c4_presence_iff :
    (∀ data : List Nat, 80 ≤ data.length →
      ((parse_pk3 data).isSome = true ↔
        1 ≤ pk3_species data ∧ pk3_species data ≤ 386)) ∧
    (∀ data : List Nat, 0x50 ≤ data.length →
      ((parse_pokemon_mc data).isSome = true ↔
        1 ≤ be16at data 0 ∧ be16at data 0 ≤ 386)) := by
  constructor
  · intro data h
    rw [parse_pk3, if_neg (by omega), if_neg (by omega)]
    unfold pk3_species
    dsimp only
    split_ifs with hs <;>
      simp only [Option.isSome_none, Option.isSome_some, Bool.false_eq_true,
        false_iff, true_iff] <;>
      omega
  · intro data h
    rw [parse_pokemon_mc, if_neg (by omega)]
    dsimp only
    split_ifs with hs <;>
      simp only [Option.isSome_none, Option.isSome_some, Bool.false_eq_true,
        false_iff, true_iff] <;>
      omega

set_option maxRecDepth 4000 in
/-- Witness for C4: species id 386 decodes on both paths; species ids 387 and 0
yield an absent record. -/
theorem c4_witness :
    (parse_pk3 data386).isSome = true ∧
    parse_pk3 data387 = none ∧ parse_pk3 dataSpecies0 = none ∧
    (parse_pokemon_mc mc386).isSome = true ∧ parse_pokemon_mc mc387 = none :=
  ⟨(c4_presence_iff.1 data386 (by decide)).mpr (by decide),
   by decide, by decide,
   (c4_presence_iff.2 mc386 (by decide)).mpr (by decide),
   by decide⟩

-- ── C3: substructure order table partitions the decrypted payload ────────────

theorem c3_table_facts : ∀ k : Fin 24,
    (SUBSTRUCTURE_ORDER.getD k.val []).length = 4 ∧
    (∀ L ∈ [ 'G', 'A', 'E', 'M' ], L ∈ SUBSTRUCTURE_ORDER.getD k.val [] ∧
       (SUBSTRUCTURE_ORDER.getD k.val []).indexOf L ≤ 3) ∧
    (∀ j < 48, (([ 'G', 'A', 'E', 'M' ].filter fun L =>
        decide (12 * (SUBSTRUCTURE_ORDER.getD k.val []).indexOf L ≤ j ∧
          j < 12 * (SUBSTRUCTURE_ORDER.getD k.val []).indexOf L + 12)).length = 1)) := by
  decide

/-- C3: every personality value selects (via mod 24) a valid entry of the
24-entry substructure-order table, and the four 12-byte blocks that entry
assigns to Growth, Attacks, Condition and Misc partition the 48 decrypted
bytes: each of the 48 byte positions falls in the block of exactly one of the
four letters (no overlap, no gap), and each letter's block is a full 12-byte
slice of the payload. -/
theorem c3_substructure_partition : ∀ pv : Nat,
    SUBSTRUCTURE_ORDER.length = 24 ∧
    pv % 24 < SUBSTRUCTURE_ORDER.length ∧
    (∀ j < 48, (([ 'G', 'A', 'E', 'M' ].filter fun L =>
        decide (12 * (substructure_entry pv).indexOf L ≤ j ∧
          j < 12 * (substructure_entry pv).indexOf L + 12)).length = 1)) ∧
    (∀ dec : List Nat, dec.length = 48 → ∀ L ∈ [ 'G', 'A', 'E', 'M' ],
        L ∈ substructure_entry pv ∧
        (sub_block dec (substructure_entry pv) L).length = 12) := by
  intro pv
  have hlen24 : SUBSTRUCTURE_ORDER.length = 24 := by decide
  have hlt : pv % 24 < 24 := Nat.mod_lt _ (by norm_num)
  obtain ⟨h4, hmem, hpart⟩ := c3_table_facts ⟨pv % 24, hlt⟩
  refine ⟨hlen24, by omega, hpart, ?_⟩
  intro dec hdec L hL
  obtain ⟨hin, hidx⟩ := hmem L hL
  have hin' : L ∈ substructure_entry pv := hin
  have hidx' : (substructure_entry pv).indexOf L ≤ 3 := hidx
  refine ⟨hin', ?_⟩
  rw [sub_block, if_pos hin', pySlice_length, hdec]
  omega

/-- Witness for C3 at personality value 5, byte position 17, an all-zero
payload, and the Condition letter. -/
theorem c3_witness :
    (([ 'G', 'A', 'E', 'M' ].filter fun L =>
        decide (12 * (substructure_entry 5).indexOf L ≤ 17 ∧
          17 < 12 * (substructure_entry 5).indexOf L + 12)).length = 1) ∧
    (sub_block (List.replicate 48 0) (substructure_entry 5) 'E').length = 12 :=
  ⟨(c3_substructure_partition 5).2.2.1 17 (by norm_num),
   ((c3_substructure_partition 5).2.2.2 (List.replicate 48 0) (by simp) 'E' (by decide)).2⟩

-- ── C5 / C10: slot selection by save index ───────────────────────────────────

theorem le32at_replicate_tail (c x0 x1 x2 x3 : Nat) :
    le32at (List.replicate 4092 c ++ [x0, x1, x2, x3]) 4092 = word4 x0 x1 x2 x3 := by
  unfold le32at
  rw [List.getD_append_right _ _ _ _ (by simp only [List.length_replicate]; omega),
    List.getD_append_right _ _ _ _ (by simp only [List.length_replicate]; omega),
    List.getD_append_right _ _ _ _ (by simp only [List.length_replicate]; omega),
    List.getD_append_right _ _ _ _ (by simp only [List.length_replicate]; omega)]
  simp only [List.length_replicate]
  norm_num [List.getD]

theorem get_save_index_pair (se : List Nat) (h : 0x1000 ≤ se.length) :
    get_save_index [(0, se)] = (le32at se 0xFFC : Int) := by
  have h1 : dictLookup [(0, se)] 0 = some se := by simp [dictLookup]
  rw [get_save_index, h1]
  exact if_pos h

theorem pick_best_slot_some_some (a b : List (Nat × List Nat)) :
    pick_best_slot (some a) (some b) =
      if get_save_index b ≤ get_save_index a then some a else some b := rfl

/-- C5: with two valid slots, _pick_best_slot returns the slot whose section-0
save index is strictly higher, and the offset-0 slot A when the indices tie. -/
theorem c5_pick_best_slot : ∀ a b : List (Nat × List Nat),
    (get_save_index b < get_save_index a → pick_best_slot (some a) (some b) = some a) ∧
    (get_save_index a < get_save_index b → pick_best_slot (some a) (some b) = some b) ∧
    (get_save_index a = get_save_index b → pick_best_slot (some a) (some b) = some a) := by
  intro a b
  refine ⟨fun h => ?_, fun h => ?_, fun h => ?_⟩ <;> rw [pick_best_slot_some_some]
  · rw [if_pos (by omega)]
  · rw [if_neg (by omega)]
  · rw [if_pos (by omega)]

theorem get_save_index_slotIdx3 : get_save_index slotIdx3 = 3 := by
  rw [slotIdx3, get_save_index_pair secIdx3
    (by rw [secIdx3]
        simp only [List.length_append, List.length_replicate, List.length_cons, List.length_nil]
        omega),
    secIdx3, le32at_replicate_tail]
  norm_num [word4]

theorem get_save_index_slotIdx7 : get_save_index slotIdx7 = 7 := by
  rw [slotIdx7, get_save_index_pair secIdx7
    (by rw [secIdx7]
        simp only [List.length_append, List.length_replicate, List.length_cons, List.length_nil]
        omega),
    secIdx7, le32at_replicate_tail]
  norm_num [word4]

theorem get_save_index_slotIdx3b : get_save_index slotIdx3b = 3 := by
  rw [slotIdx3b, get_save_index_pair secIdx3b
    (by rw [secIdx3b]
        simp only [List.length_append, List.length_replicate, List.length_cons, List.length_nil]
        omega),
    secIdx3b, le32at_replicate_tail]
  norm_num [word4]

/-- Witness for C5: save indices 3 vs 7 pick the second slot; a 3-3 tie picks
the first slot. -/
theorem c5_witness :
    pick_best_slot (some slotIdx3) (some slotIdx7) = some slotIdx7 ∧
    pick_best_slot (some slotIdx3) (some slotIdx3b) = some slotIdx3 :=
  ⟨(c5_pick_best_slot slotIdx3 slotIdx7).2.1
      (by rw [get_save_index_slotIdx3, get_save_index_slotIdx7]; norm_num),
   (c5_pick_best_slot slotIdx3 slotIdx3b).2.2
      (by rw [get_save_index_slotIdx3, get_save_index_slotIdx3b])⟩

theorem get_save_index_of_not_readable {m : List (Nat × List Nat)}
    (h : ¬ section0Readable m) : get_save_index m = -1 := by
  rcases hm : dictLookup m 0 with _ | se
  · rw [get_save_index, hm]
  · rw [get_save_index, hm]
    dsimp only
    rw [if_neg]
    intro hle
    exact h ⟨se, hm, hle⟩

theorem get_save_index_nonneg {m : List (Nat × List Nat)}
    (h : section0Readable m) : 0 ≤ get_save_index m := by
  obtain ⟨se, hse, hle⟩ := h
  rw [get_save_index, hse]
  dsimp only
  rw [if_pos (by omega)]
  exact Int.natCast_nonneg _

/-- C10: a slot whose section 0 is absent, or too short to hold the save-index
word, gets save index -1; consequently a slot with a readable section-0 save
index always wins the comparison against one without, and when neither slot
has a readable index the offset-0 slot A is selected. -/
theorem c10_unreadable_index : ∀ a b : List (Nat × List Nat),
    (dictLookup a 0 = none → get_save_index a = -1) ∧
    (∀ se, dictLookup a 0 = some se → se.length < 0x1000 → get_save_index a = -1) ∧
    (section0Readable a → ¬ section0Readable b →
      pick_best_slot (some a) (some b) = some a) ∧
    (¬ section0Readable a → section0Readable b →
      pick_best_slot (some a) (some b) = some b) ∧
    (¬ section0Readable a → ¬ section0Readable b →
      pick_best_slot (some a) (some b) = some a) := by
  intro a b
  refine ⟨fun h => by rw [get_save_index, h], fun se hse hlt => ?_, ?_, ?_, ?_⟩
  · rw [get_save_index, hse]
    dsimp only
    rw [if_neg (by omega)]
  · intro ha hb
    rw [pick_best_slot_some_some, if_pos]
    rw [get_save_index_of_not_readable hb]
    have := get_save_index_nonneg ha
    omega
  · intro ha hb
    rw [pick_best_slot_some_some, if_neg]
    rw [get_save_index_of_not_readable ha]
    have := get_save_index_nonneg hb
    omega
  · intro ha hb
    rw [pick_best_slot_some_some, if_pos]
    rw [get_save_index_of_not_readable ha, get_save_index_of_not_readable hb]

/-- Witness for C10: a readable slot beats an unreadable one on either side;
two unreadable slots fall back to slot A; a too-short section 0 reads as -1. -/
theorem c10_witness :
    pick_best_slot (some slotIdx3) (some slotNoZero) = some slotIdx3 ∧
    pick_best_slot (some slotNoZero) (some slotIdx3) = some slotIdx3 ∧
    pick_best_slot (some slotNoZero) (some slotShortZero) = some slotNoZero ∧
    get_save_index slotShortZero = -1 ∧ get_save_index slotNoZero = -1 := by
  have hread : section0Readable slotIdx3 :=
    ⟨secIdx3, by simp [slotIdx3, dictLookup],
     by rw [secIdx3]
        simp only [List.length_append, List.length_replicate, List.length_cons,
          List.length_nil]
        omega⟩
  have hno : ¬ section0Readable slotNoZero := by
    rintro ⟨se, hse, hle⟩
    rw [show dictLookup slotNoZero 0 = none from by decide] at hse
    exact Option.noConfusion hse
  have hshort : ¬ section0Readable slotShortZero := by
    rintro ⟨se, hse, hle⟩
    rw [show dictLookup slotShortZero 0 = some [1, 2, 3] from by decide] at hse
    cases hse
    norm_num at hle
  exact ⟨(c10_unreadable_index slotIdx3 slotNoZero).2.2.1 hread hno,
    (c10_unreadable_index slotNoZero slotIdx3).2.2.2.1 hno hread,
    (c10_unreadable_index slotNoZero slotShortZero).2.2.2.2 hno hshort,
    (c10_unreadable_index slotShortZero []).2.1 [1, 2, 3] (by decide) (by norm_num),
    (c10_unreadable_index slotNoZero []).1 (by decide)⟩

-- ── C9: party count clamp and bounded record windows ─────────────────────────

theorem partyLoop_length_le (sec : List Nat) : ∀ n i, (partyLoop sec n i).length ≤ n := by
  intro n
  induction n with
  | zero =>
    intro i
    simp [partyLoop]
  | succ m ih =>
    intro i
    simp only [partyLoop]
    split_ifs with h
    · cases hp : parse_pk3 (pySlice sec (0x238 + i * 100) (0x238 + i * 100 + 100)) with
      | none => exact le_trans (ih (i + 1)) (by omega)
      | some p =>
        dsimp only
        split_ifs with hs
        · simpa using Nat.succ_le_succ (ih (i + 1))
        · exact le_trans (ih (i + 1)) (by omega)
    · simp

theorem partyLoop_mem (sec : List Nat) : ∀ n i p, p ∈ partyLoop sec n i →
    ∃ j, i ≤ j ∧ j < i + n ∧ 0x238 + j * 100 + 100 ≤ sec.length ∧
      parse_pk3 (pySlice sec (0x238 + j * 100) (0x238 + j * 100 + 100)) = some p := by
  intro n
  induction n with
  | zero =>
    intro i p hp
    simp [partyLoop] at hp
  | succ m ih =>
    intro i p hp
    simp only [partyLoop] at hp
    split_ifs at hp with h
    · rcases hq : parse_pk3 (pySlice sec (0x238 + i * 100) (0x238 + i * 100 + 100)) with
        _ | q
      · rw [hq] at hp
        obtain ⟨j, hj0, hjlt, hle, hparse⟩ := ih (i + 1) p hp
        exact ⟨j, by omega, by omega, hle, hparse⟩
      · rw [hq] at hp
        dsimp only at hp
        split_ifs at hp with hs
        · rcases List.mem_cons.mp hp with rfl | hp2
          · exact ⟨i, le_refl i, by omega, h, hq⟩
          · obtain ⟨j, hj0, hjlt, hle, hparse⟩ := ih (i + 1) p hp2
            exact ⟨j, by omega, by omega, hle, hparse⟩
        · obtain ⟨j, hj0, hjlt, hle, hparse⟩ := ih (i + 1) p hp
          exact ⟨j, by omega, by omega, hle, hparse⟩
    · simp at hp

/-- C9: the decoded party of a section-1 buffer never holds more than six
records (the stored 32-bit count at 0x234 is clamped with max(0, min(6, n))
before decoding, so a stored count of 9 decodes at most 6), and every decoded
record comes from a 100-byte window that lies entirely inside the section
(a window that would overrun the section stops the loop early instead of
failing or reading out of bounds). -/
theorem c9_party_clamp : ∀ sec : List Nat,
    (parse_party_sec sec).length ≤ 6 ∧
    (∀ p, p ∈ parse_party_sec sec →
      ∃ i, i < max 0 (min 6 (le32at sec 0x234)) ∧
        0x238 + i * 100 + 100 ≤ sec.length ∧
        parse_pk3 (pySlice sec (0x238 + i * 100) (0x238 + i * 100 + 100)) = some p) := by
  intro sec
  constructor
  · rw [parse_party_sec]
    split_ifs with h
    · exact le_trans (partyLoop_length_le sec _ 0) (by omega)
    · simp
  · intro p hp
    rw [parse_party_sec] at hp
    split_ifs at hp with h
    · obtain ⟨j, hj0, hjlt, hle, hparse⟩ := partyLoop_mem sec _ 0 p hp
      exact ⟨j, by omega, hle, hparse⟩
    · simp at hp

set_option maxRecDepth 10000 in
/-- Witness for C9 at a section-1 buffer whose stored count field is 9 but
which has room for one record window: the party decodes to the single record
p9, within the clamped bound. -/
theorem c9_witness :
    le32at sec9 0x234 = 9 ∧ (parse_party_sec sec9).length ≤ 6 ∧
    (∃ i, i < max 0 (min 6 (le32at sec9 0x234)) ∧
      0x238 + i * 100 + 100 ≤ sec9.length ∧
      parse_pk3 (pySlice sec9 (0x238 + i * 100) (0x238 + i * 100 + 100)) = some p9) :=
  ⟨by decide, (c9_party_clamp sec9).1,
   (c9_party_clamp sec9).2 p9 (by decide)⟩

-- ── Dictionary lemmas for slot assembly ──────────────────────────────────────

theorem find?_filter_ne (m : List (Nat × List Nat)) (k kp : Nat) (hkk : kp ≠ k) :
    (m.filter fun q => q.1 != k).find? (fun q => q.1 == kp) =
      m.find? (fun q => q.1 == kp) := by
  induction m with
  | nil => rfl
  | cons a t ih =>
    by_cases ha : a.1 = k
    · rw [List.filter_cons_of_neg (by simp [ha])]
      rw [ih]
      rw [List.find?_cons_of_neg _ (by simp [ha, Ne.symm hkk])]
    · rw [List.filter_cons_of_pos (by simp [ha])]
      by_cases hb : a.1 = kp
      · rw [List.find?_cons_of_pos _ (by simp [hb]), List.find?_cons_of_pos _ (by simp [hb])]
      · rw [List.find?_cons_of_neg _ (by simp [hb]), List.find?_cons_of_neg _ (by simp [hb]),
          ih]

theorem dictLookup_insert (m : List (Nat × List Nat)) (k : Nat) (v : List Nat)
    (kp : Nat) :
    dictLookup (dictInsert m k v) kp = if kp = k then some v else dictLookup m kp := by
  rw [dictInsert, dictLookup, List.find?_append]
  split_ifs with hk
  · have hnone : (m.filter fun q => q.1 != k).find? (fun q => q.1 == kp) = none := by
      rw [List.find?_eq_none]
      intro x hx
      have hne := List.of_mem_filter hx
      simp only [bne_iff_ne, ne_eq] at hne
      simp [hk, hne]
    rw [hnone]
    simp [List.find?, hk]
  · rw [find?_filter_ne m k kp hk]
    have h2 : (k == kp) = false := by simp [Ne.symm hk]
    cases hf : m.find? (fun q => q.1 == kp) with
    | none => simp [dictLookup, hf, List.find?, h2]
    | some q => simp [dictLookup, hf]

theorem dictInsert_ne_nil (m : List (Nat × List Nat)) (k : Nat) (v : List Nat) :
    dictInsert m k v ≠ [] := by
  rw [dictInsert]
  simp

-- ── slotLoop stepping and structure lemmas ───────────────────────────────────

theorem slotLoop_step_oob (data : List Nat) (off n i : Nat)
    (acc : List (Nat × List Nat)) (h : ¬ off + i * 4096 + 4096 ≤ data.length) :
    slotLoop data off (n + 1) i acc = acc := by
  simp only [slotLoop]
  rw [if_neg h]

theorem slotLoop_step_skip (data : List Nat) (off n i : Nat)
    (acc : List (Nat × List Nat)) (h : off + i * 4096 + 4096 ≤ data.length)
    (hid : 13 < le16at (pySlice data (off + i * 4096) (off + i * 4096 + 4096)) 0xFF8) :
    slotLoop data off (n + 1) i acc = slotLoop data off n (i + 1) acc := by
  simp only [slotLoop]
  rw [if_pos h, if_pos hid]

theorem slotLoop_step_insert (data : List Nat) (off n i : Nat)
    (acc : List (Nat × List Nat)) (h : off + i * 4096 + 4096 ≤ data.length)
    (hid : ¬ 13 < le16at (pySlice data (off + i * 4096) (off + i * 4096 + 4096)) 0xFF8) :
    slotLoop data off (n + 1) i acc = slotLoop data off n (i + 1)
      (dictInsert acc (le16at (pySlice data (off + i * 4096) (off + i * 4096 + 4096)) 0xFF8)
        (pySlice data (off + i * 4096) (off + i * 4096 + 4096))) := by
  simp only [slotLoop]
  rw [if_pos h, if_neg hid]

theorem slotLoop_ne_nil (data : List Nat) (off : Nat) : ∀ n i acc,
    acc ≠ [] → slotLoop data off n i acc ≠ [] := by
  intro n
  induction n with
  | zero =>
    intro i acc ha
    exact ha
  | succ m ih =>
    intro i acc ha
    by_cases h : off + i * 4096 + 4096 ≤ data.length
    · by_cases hid : 13 < le16at (pySlice data (off + i * 4096) (off + i * 4096 + 4096)) 0xFF8
      · rw [slotLoop_step_skip data off m i acc h hid]
        exact ih (i + 1) acc ha
      · rw [slotLoop_step_insert data off m i acc h hid]
        exact ih (i + 1) _ (dictInsert_ne_nil _ _ _)
    · rw [slotLoop_step_oob data off m i acc h]
      exact ha

theorem slotLoop_mem_cases (data : List Nat) (off : Nat) : ∀ n i acc p,
    p ∈ slotLoop data off n i acc →
    p ∈ acc ∨ ∃ s, off + s * 4096 + 4096 ≤ data.length ∧
      p.2 = pySlice data (off + s * 4096) (off + s * 4096 + 4096) ∧
      p.1 = le16at p.2 0xFF8 ∧ p.1 ≤ 13 := by
  intro n
  induction n with
  | zero =>
    intro i acc p hp
    exact Or.inl hp
  | succ m ih =>
    intro i acc p hp
    by_cases h : off + i * 4096 + 4096 ≤ data.length
    · by_cases hid : 13 < le16at (pySlice data (off + i * 4096) (off + i * 4096 + 4096)) 0xFF8
      · rw [slotLoop_step_skip data off m i acc h hid] at hp
        exact ih (i + 1) acc p hp
      · rw [slotLoop_step_insert data off m i acc h hid] at hp
        rcases ih (i + 1) _ p hp with hin | hnew
        · rw [dictInsert] at hin
          rcases List.mem_append.mp hin with hf | hone
          · exact Or.inl (List.mem_of_mem_filter hf)
          · rcases List.mem_singleton.mp hone with rfl
            exact Or.inr ⟨i, h, rfl, rfl, by omega⟩
        · exact Or.inr hnew
    · rw [slotLoop_step_oob data off m i acc h] at hp
      exact Or.inl hp

theorem slotLoop_eq_nil_iff (data : List Nat) (off : Nat) : ∀ n i acc,
    slotLoop data off n i acc = [] ↔
      acc = [] ∧ ∀ m < n, off + (i + m) * 4096 + 4096 ≤ data.length →
        13 < le16at (pySlice data (off + (i + m) * 4096) (off + (i + m) * 4096 + 4096))
          0xFF8 := by
  intro n
  induction n with
  | zero =>
    intro i acc
    simp [slotLoop]
  | succ m ih =>
    intro i acc
    by_cases h : off + i * 4096 + 4096 ≤ data.length
    · by_cases hid : 13 < le16at (pySlice data (off + i * 4096) (off + i * 4096 + 4096)) 0xFF8
      · rw [slotLoop_step_skip data off m i acc h hid, ih (i + 1) acc]
        constructor
        · rintro ⟨ha, hall⟩
          refine ⟨ha, ?_⟩
          intro s hs hle
          rcases Nat.eq_zero_or_pos s with rfl | hpos
          · simpa using hid
          · have heq : i + s = i + 1 + (s - 1) := by omega
            rw [heq] at hle ⊢
            exact hall (s - 1) (by omega) hle
        · rintro ⟨ha, hall⟩
          refine ⟨ha, ?_⟩
          intro s hs hle
          have heq : i + 1 + s = i + (s + 1) := by omega
          rw [heq] at hle ⊢
          exact hall (s + 1) (by omega) hle
      · rw [slotLoop_step_insert data off m i acc h hid]
        constructor
        · intro hnil
          exact absurd hnil (slotLoop_ne_nil data off m (i + 1) _ (dictInsert_ne_nil _ _ _))
        · rintro ⟨ha, hall⟩
          have := hall 0 (by omega) (by simpa using h)
          simp only [Nat.add_zero] at this
          exact absurd this hid
    · rw [slotLoop_step_oob data off m i acc h]
      constructor
      · intro ha
        refine ⟨ha, ?_⟩
        intro s hs hle
        exact absurd hle (by omega)
      · rintro ⟨ha, _⟩
        exact ha

theorem dictLookup_isSome_insert (m : List (Nat × List Nat)) (k : Nat) (v : List Nat)
    (kp : Nat) (h : (dictLookup m kp).isSome = true) :
    (dictLookup (dictInsert m k v) kp).isSome = true := by
  rw [dictLookup_insert]
  split_ifs with hk
  · rfl
  · exact h

theorem slotLoop_preserves_key (data : List Nat) (off : Nat) : ∀ n i acc k,
    (dictLookup acc k).isSome = true →
    (dictLookup (slotLoop data off n i acc) k).isSome = true := by
  intro n
  induction n with
  | zero =>
    intro i acc k h
    exact h
  | succ m ih =>
    intro i acc k h
    by_cases hb : off + i * 4096 + 4096 ≤ data.length
    · by_cases hid : 13 < le16at (pySlice data (off + i * 4096) (off + i * 4096 + 4096)) 0xFF8
      · rw [slotLoop_step_skip data off m i acc hb hid]
        exact ih (i + 1) acc k h
      · rw [slotLoop_step_insert data off m i acc hb hid]
        exact ih (i + 1) _ k (dictLookup_isSome_insert acc _ _ k h)
    · rw [slotLoop_step_oob data off m i acc hb]
      exact h

theorem slotLoop_key_present (data : List Nat) (off : Nat) : ∀ n i acc s, s < n →
    off + (i + s) * 4096 + 4096 ≤ data.length →
    le16at (pySlice data (off + (i + s) * 4096) (off + (i + s) * 4096 + 4096)) 0xFF8 ≤ 13 →
    (dictLookup (slotLoop data off n i acc)
      (le16at (pySlice data (off + (i + s) * 4096) (off + (i + s) * 4096 + 4096)) 0xFF8)).isSome
      = true := by
  intro n
  induction n with
  | zero =>
    intro i acc s hs
    omega
  | succ m ih =>
    intro i acc s hs hle hid
    by_cases hb : off + i * 4096 + 4096 ≤ data.length
    · rcases Nat.eq_zero_or_pos s with rfl | hpos
      · simp only [Nat.add_zero] at hle hid ⊢
        rw [slotLoop_step_insert data off m i acc hb (by omega)]
        refine slotLoop_preserves_key data off m (i + 1) _ _ ?_
        rw [dictLookup_insert]
        rw [if_pos rfl]
        rfl
      · have heq : i + s = i + 1 + (s - 1) := by omega
        rw [heq] at hle hid ⊢
        by_cases hskip :
            13 < le16at (pySlice data (off + i * 4096) (off + i * 4096 + 4096)) 0xFF8
        · rw [slotLoop_step_skip data off m i acc hb hskip]
          exact ih (i + 1) acc (s - 1) (by omega) hle hid
        · rw [slotLoop_step_insert data off m i acc hb hskip]
          exact ih (i + 1) _ (s - 1) (by omega) hle hid
    · exact absurd hle (by omega)

/-- C6: slot assembly discards sections whose footer id exceeds 13 without
invalidating the slot (every retained id is at most 13, and a slot is None
exactly when no in-bounds section window carries an id at most 13 — so a bad
id alone never kills a slot that still has one valid section); slot selection
keeps a single valid slot as is; and when both slots are invalid the whole
parse returns None (NoValidSlot) instead of partial data. -/
theorem c6_slot_assembly : ∀ (data : List Nat) (off : Nat),
    (∀ p ∈ (parse_slot data off).getD [], p.1 ≤ 13) ∧
    (parse_slot data off = none ↔ ∀ i < 14, off + i * 4096 + 4096 ≤ data.length →
      13 < le16at (pySlice data (off + i * 4096) (off + i * 4096 + 4096)) 0xFF8) ∧
    pick_best_slot none none = none ∧
    (∀ a, pick_best_slot (some a) none = some a) ∧
    (∀ b, pick_best_slot none (some b) = some b) ∧
    (parse_slot data 0 = none → parse_slot data 0xE000 = none →
      parse_save_data data = none) := by
  intro data off
  refine ⟨?_, ?_, rfl, fun a => rfl, fun b => rfl, ?_⟩
  · intro p hp
    rw [parse_slot] at hp
    split_ifs at hp with hemp
    · simp at hp
    · simp only [Option.getD_some] at hp
      rcases slotLoop_mem_cases data off 14 0 [] p hp with hin | ⟨s, _, _, _, hle13⟩
      · simp at hin
      · exact hle13
  · rw [parse_slot]
    split_ifs with hemp
    · have hnil : slotLoop data off 14 0 [] = [] := List.isEmpty_iff.mp hemp
      have hall := ((slotLoop_eq_nil_iff data off 14 0 []).mp hnil).2
      constructor
      · intro _ i hi hle
        have := hall i hi (by simpa using hle)
        simpa using this
      · intro _
        rfl
    · constructor
      · intro hcontra
        exact absurd hcontra (by simp)
      · intro hall
        have hnil : slotLoop data off 14 0 [] = [] := by
          rw [slotLoop_eq_nil_iff]
          refine ⟨rfl, ?_⟩
          intro m hm hle
          have := hall m hm (by simpa using hle)
          simpa using this
        rw [List.isEmpty_iff] at hemp
        exact absurd hnil hemp
  · intro h0 hE
    rw [parse_save_data]
    split_ifs with hlen h2
    · rfl
    · rw [h0, hE]
      rfl
    · rw [h0]
      rfl

theorem verify_false_iff (sec : List Nat) (h : 0xFFC ≤ sec.length) :
    verify_section_checksum sec = false ↔
      compute_section_checksum sec ≠ le16at sec 0xFFA := by
  rw [verify_section_checksum, if_pos (by omega)]
  simp [beq_eq_false_iff_ne]

/-- C7: every section retained by slot assembly is a full 4096-byte window
whose per-section checksum-valid flag (the verdict _verify_section_checksum
computes for the retained bytes during assembly) is false exactly when the
recomputed fold checksum differs from the stored footer checksum at 0xFFA;
and a section with a valid id is retained in the slot regardless of that flag
(no checksum hypothesis is needed for retention). -/
theorem c7_checksum_flag : ∀ (data : List Nat) (off : Nat),
    (∀ p ∈ (parse_slot data off).getD [], p.2.length = 4096 ∧
      (verify_section_checksum p.2 = false ↔
        compute_section_checksum p.2 ≠ le16at p.2 0xFFA)) ∧
    (∀ i < 14, off + i * 4096 + 4096 ≤ data.length →
      le16at (pySlice data (off + i * 4096) (off + i * 4096 + 4096)) 0xFF8 ≤ 13 →
      (dictLookup ((parse_slot data off).getD [])
        (le16at (pySlice data (off + i * 4096) (off + i * 4096 + 4096)) 0xFF8)).isSome
        = true) := by
  intro data off
  constructor
  · intro p hp
    rw [parse_slot] at hp
    split_ifs at hp with hemp
    · simp at hp
    · simp only [Option.getD_some] at hp
      rcases slotLoop_mem_cases data off 14 0 [] p hp with hin | ⟨s, hle, hsec, _, _⟩
      · simp at hin
      · have hlen : p.2.length = 4096 := by
          rw [hsec, pySlice_length]
          omega
        exact ⟨hlen, verify_false_iff p.2 (by omega)⟩
  · intro i hi hle hid
    have hkey := slotLoop_key_present data off 14 0 [] i hi
      (by simpa using hle) (by simpa using hid)
    rw [parse_slot]
    split_ifs with hemp
    · have hnil : slotLoop data off 14 0 [] = [] := List.isEmpty_iff.mp hemp
      rw [hnil] at hkey
      simp [dictLookup] at hkey
    · simpa using hkey

-- ── Concrete-section computations for the slot witnesses ─────────────────────

theorem d0sec_length : d0sec.length = 4096 := by
  rw [d0sec]
  simp only [List.length_append, List.length_replicate, List.length_cons, List.length_nil]

theorem pySlice_zero_full (data : List Nat) (h : data.length ≤ 4096) :
    pySlice data 0 4096 = data := by
  rw [pySlice, List.drop_zero, Nat.sub_zero, List.take_of_length_le h]

theorem le16at_d0sec_id : le16at d0sec 0xFF8 = 0 := by
  rw [d0sec, le16at,
    List.getD_append_right _ _ _ _ (by simp only [List.length_replicate]; omega),
    List.getD_append_right _ _ _ _ (by simp only [List.length_replicate]; omega)]
  simp only [List.length_replicate]
  norm_num [List.getD]

theorem le16at_d0sec_stored : le16at d0sec 0xFFA = 0xABCD := by
  rw [d0sec, le16at,
    List.getD_append_right _ _ _ _ (by simp only [List.length_replicate]; omega),
    List.getD_append_right _ _ _ _ (by simp only [List.length_replicate]; omega)]
  simp only [List.length_replicate]
  norm_num [List.getD]

theorem checksum_total_replicate_zero : ∀ n, checksum_total (List.replicate (4 * n) 0) = 0 := by
  intro n
  induction n with
  | zero => rfl
  | succ m ih =>
    have h : List.replicate (4 * (m + 1)) (0 : Nat) =
        0 :: 0 :: 0 :: 0 :: List.replicate (4 * m) 0 := by
      rw [show 4 * (m + 1) = 4 * m + 4 by ring]
      rfl
    rw [h]
    show word4 0 0 0 0 + checksum_total (List.replicate (4 * m) 0) = 0
    rw [ih]
    rfl

theorem compute_d0sec : compute_section_checksum d0sec = 0 := by
  have htake : d0sec.take 0xFF8 = List.replicate 4088 0 := by
    rw [d0sec, List.take_left' (by simp only [List.length_replicate])]
  rw [compute_section_checksum, htake, show (4088 : Nat) = 4 * 1022 from rfl,
    checksum_total_replicate_zero]
  rfl

theorem parse_slot_single (data : List Nat) (hlen : data.length = 4096)
    (hid : le16at data 0xFF8 ≤ 13) :
    parse_slot data 0 = some [(le16at data 0xFF8, data)] := by
  have hsl : pySlice data (0 + 0 * 4096) (0 + 0 * 4096 + 4096) = data := by
    norm_num
    exact pySlice_zero_full data (by omega)
  have h1 : slotLoop data 0 14 0 [] = slotLoop data 0 13 1 [(le16at data 0xFF8, data)] := by
    rw [show (14 : Nat) = 13 + 1 from rfl,
      slotLoop_step_insert data 0 13 0 [] (by omega) (by rw [hsl]; omega), hsl]
    rfl
  have h2 : slotLoop data 0 13 1 [(le16at data 0xFF8, data)] =
      [(le16at data 0xFF8, data)] := by
    rw [show (13 : Nat) = 12 + 1 from rfl, slotLoop_step_oob data 0 12 1 _ (by omega)]
  rw [parse_slot, h1, h2]
  simp

theorem parse_slot_d0sec : parse_slot d0sec 0 = some [(0, d0sec)] := by
  have h := parse_slot_single d0sec d0sec_length (by rw [le16at_d0sec_id]; norm_num)
  rw [le16at_d0sec_id] at h
  exact h

/-- Witness for C6: an empty buffer has two invalid slots, so the whole parse
returns None; a retained section of the concrete one-section slot d0sec has a
footer id within 0..13. -/
theorem c6_witness :
    parse_save_data [] = none ∧ parse_slot [] 0 = none ∧ (0, d0sec).1 ≤ 13 := by
  have hnone0 : parse_slot [] 0 = none :=
    (c6_slot_assembly [] 0).2.1.mpr (fun i hi hle => by simp at hle)
  have hnoneE : parse_slot [] 0xE000 = none :=
    (c6_slot_assembly [] 0xE000).2.1.mpr (fun i hi hle => by simp at hle)
  have hmem : (0, d0sec) ∈ (parse_slot d0sec 0).getD [] := by
    rw [parse_slot_d0sec]
    simp
  exact ⟨(c6_slot_assembly [] 0).2.2.2.2.2 hnone0 hnoneE, hnone0,
    (c6_slot_assembly d0sec 0).1 (0, d0sec) hmem⟩

/-- Witness for C7: the concrete section d0sec stores checksum 0xABCD while the
recomputed fold checksum of its all-zero data area is 0, so its checksum-valid
flag is false, yet the section is retained in the assembled slot. -/
theorem c7_witness :
    (0, d0sec) ∈ (parse_slot d0sec 0).getD [] ∧
    verify_section_checksum d0sec = false ∧
    compute_section_checksum d0sec = 0 ∧ le16at d0sec 0xFFA = 0xABCD ∧
    (dictLookup ((parse_slot d0sec 0).getD []) 0).isSome = true := by
  have hmem : (0, d0sec) ∈ (parse_slot d0sec 0).getD [] := by
    rw [parse_slot_d0sec]
    simp
  have hiff := ((c7_checksum_flag d0sec 0).1 (0, d0sec) hmem).2
  refine ⟨hmem, ?_, compute_d0sec, le16at_d0sec_stored, ?_⟩
  · exact hiff.mpr (by rw [compute_d0sec, le16at_d0sec_stored]; norm_num)
  · rw [parse_slot_d0sec]
    simp [dictLookup, List.find?]

-- ── C8: fold checksum properties ─────────────────────────────────────────────

theorem fold16_mod (t : Nat) : fold16 t = (t / 65536 + t % 65536) % 65536 := by
  have h1 : ∀ x : Nat, x &&& 0xFFFF = x % 65536 := by
    intro x
    have h := Nat.and_pow_two_sub_one_eq_mod x 16
    norm_num at h
    exact h
  have h2 : t >>> 16 = t / 65536 := by
    rw [Nat.shiftRight_eq_div_pow]
  rw [fold16, h1, h1, h2]

theorem fold16_lt (t : Nat) : fold16 t < 65536 := by
  rw [fold16_mod]
  exact Nat.mod_lt _ (by norm_num)

theorem fold16_add_pow_ne (t q : Nat) (hq : q < 32) :
    fold16 (t + 2 ^ q) ≠ fold16 t := by
  rw [fold16_mod, fold16_mod]
  interval_cases q <;> omega

set_option maxRecDepth 10000 in
theorem xor_flip_byte : ∀ b < 256, ∀ k < 8,
    b ^^^ 2 ^ k = b + 2 ^ k ∨ (b ^^^ 2 ^ k) + 2 ^ k = b := by
  decide

theorem checksum_total_set_aux : ∀ (n : Nat) (l : List Nat) (i v : Nat),
    l.length = 4 * n → i < l.length →
    checksum_total (l.set i v) + l.getD i 0 * 2 ^ (8 * (i % 4)) =
      checksum_total l + v * 2 ^ (8 * (i % 4)) := by
  intro n
  induction n with
  | zero =>
    intro l i v hl hi
    omega
  | succ m ih =>
    intro l i v hl hi
    match l, hl with
    | b0 :: b1 :: b2 :: b3 :: rest, hl =>
      rcases i with _ | _ | _ | _ | j
      · show checksum_total (v :: b1 :: b2 :: b3 :: rest) + b0 * 2 ^ (8 * (0 % 4)) = _
        show word4 v b1 b2 b3 + checksum_total rest + b0 * 2 ^ (8 * (0 % 4)) =
          word4 b0 b1 b2 b3 + checksum_total rest + v * 2 ^ (8 * (0 % 4))
        simp only [word4]
        norm_num
        try omega
      · show word4 b0 v b2 b3 + checksum_total rest + b1 * 2 ^ (8 * (1 % 4)) =
          word4 b0 b1 b2 b3 + checksum_total rest + v * 2 ^ (8 * (1 % 4))
        simp only [word4]
        norm_num
        try omega
      · show word4 b0 b1 v b3 + checksum_total rest + b2 * 2 ^ (8 * (2 % 4)) =
          word4 b0 b1 b2 b3 + checksum_total rest + v * 2 ^ (8 * (2 % 4))
        simp only [word4]
        norm_num
        try omega
      · show word4 b0 b1 b2 v + checksum_total rest + b3 * 2 ^ (8 * (3 % 4)) =
          word4 b0 b1 b2 b3 + checksum_total rest + v * 2 ^ (8 * (3 % 4))
        simp only [word4]
        norm_num
        try omega
      · have hset : (b0 :: b1 :: b2 :: b3 :: rest).set (j + 4) v =
            b0 :: b1 :: b2 :: b3 :: rest.set j v := rfl
        have hget : (b0 :: b1 :: b2 :: b3 :: rest).getD (j + 4) 0 = rest.getD j 0 := rfl
        have hmod : (j + 4) % 4 = j % 4 := by omega
        have hrest : rest.length = 4 * m := by
          simp only [List.length_cons] at hl
          omega
        have hj : j < rest.length := by
          simp only [List.length_cons] at hi
          omega
        have hih := ih rest j v hrest hj
        show checksum_total ((b0 :: b1 :: b2 :: b3 :: rest).set (j + 4) v) +
            (b0 :: b1 :: b2 :: b3 :: rest).getD (j + 4) 0 * 2 ^ (8 * ((j + 4) % 4)) =
          checksum_total (b0 :: b1 :: b2 :: b3 :: rest) + v * 2 ^ (8 * ((j + 4) % 4))
        rw [hset, hget, hmod]
        show word4 b0 b1 b2 b3 + checksum_total (rest.set j v) + rest.getD j 0 * 2 ^ (8 * (j % 4)) =
          word4 b0 b1 b2 b3 + checksum_total rest + v * 2 ^ (8 * (j % 4))
        omega

theorem getD_take_lt (l : List Nat) (n i : Nat) (h : i < n) :
    (l.take n).getD i 0 = l.getD i 0 := by
  rcases lt_or_le i l.length with hi | hi
  · rw [List.getD_eq_getElem _ _ (by simp only [List.length_take]; omega),
      List.getD_eq_getElem _ _ hi]
    exact List.getElem_take l
  · rw [List.getD_eq_default _ _ (by simp only [List.length_take]; omega),
      List.getD_eq_default _ _ hi]

/-- C8: the section fold checksum is a function of only the first 0xFF8 bytes
of the section and always produces a 16-bit value, and flipping any single bit
of any byte inside those first 0xFF8 bytes always changes the checksum. -/
theorem c8_checksum_sensitivity : ∀ s : List Nat,
    compute_section_checksum s < 65536 ∧
    (∀ t : List Nat, s.take 0xFF8 = t.take 0xFF8 →
      compute_section_checksum s = compute_section_checksum t) ∧
    (∀ i k, i < 0xFF8 → k < 8 → 0xFF8 ≤ s.length → (∀ b ∈ s, b < 256) →
      compute_section_checksum (s.set i (s.getD i 0 ^^^ 2 ^ k)) ≠
        compute_section_checksum s) := by
  intro s
  refine ⟨fold16_lt _,
    fun t ht => by rw [compute_section_checksum, compute_section_checksum, ht], ?_⟩
  intro i k hi hk hlen hb
  have hblt : s.getD i 0 < 256 := getD_lt_256 hb i
  rw [compute_section_checksum, compute_section_checksum, List.set_take]
  have halen : (s.take 0xFF8).length = 0xFF8 := by
    rw [List.length_take]
    omega
  have hgetD : (s.take 0xFF8).getD i 0 = s.getD i 0 := getD_take_lt s 0xFF8 i hi
  have htot := checksum_total_set_aux 1022 (s.take 0xFF8) i (s.getD i 0 ^^^ 2 ^ k)
    (by rw [halen]) (by omega)
  rw [hgetD] at htot
  have hq : k + 8 * (i % 4) < 32 := by omega
  have hpow : (2 : Nat) ^ k * 2 ^ (8 * (i % 4)) = 2 ^ (k + 8 * (i % 4)) :=
    (pow_add 2 k _).symm
  rcases xor_flip_byte (s.getD i 0) hblt k hk with hplus | hminus
  · have hb2 : (s.getD i 0 ^^^ 2 ^ k) * 2 ^ (8 * (i % 4)) =
        s.getD i 0 * 2 ^ (8 * (i % 4)) + 2 ^ k * 2 ^ (8 * (i % 4)) := by
      rw [← add_mul, ← hplus]
    rw [hb2, hpow] at htot
    have hTp : checksum_total ((s.take 0xFF8).set i (s.getD i 0 ^^^ 2 ^ k)) =
        checksum_total (s.take 0xFF8) + 2 ^ (k + 8 * (i % 4)) := by
      omega
    rw [hTp]
    exact fold16_add_pow_ne _ _ hq
  · have hb2 : s.getD i 0 * 2 ^ (8 * (i % 4)) =
        (s.getD i 0 ^^^ 2 ^ k) * 2 ^ (8 * (i % 4)) + 2 ^ k * 2 ^ (8 * (i % 4)) := by
      rw [← add_mul, hminus]
    rw [hb2, hpow] at htot
    have hT : checksum_total (s.take 0xFF8) =
        checksum_total ((s.take 0xFF8).set i (s.getD i 0 ^^^ 2 ^ k)) +
          2 ^ (k + 8 * (i % 4)) := by
      omega
    rw [hT]
    exact (fold16_add_pow_ne _ _ hq).symm

/-- Witness for C8: over a 0xFF8-byte all-zero data area the checksum is a
16-bit value, extending the buffer beyond the covered area leaves it
unchanged, and flipping bit 0 of byte 0 changes it. -/
theorem c8_witness :
    compute_section_checksum (List.replicate 4088 0) < 65536 ∧
    compute_section_checksum (List.replicate 4088 0) =
      compute_section_checksum (List.replicate 4088 0 ++ [99]) ∧
    compute_section_checksum
        ((List.replicate 4088 0).set 0 ((List.replicate 4088 0).getD 0 0 ^^^ 2 ^ 0)) ≠
      compute_section_checksum (List.replicate 4088 0) :=
  ⟨(c8_checksum_sensitivity _).1,
   (c8_checksum_sensitivity _).2.1 (List.replicate 4088 0 ++ [99])
     (by rw [List.take_of_length_le (by simp only [List.length_replicate]; omega),
           List.take_left' (by simp only [List.length_replicate])]),
   (c8_checksum_sensitivity _).2.2 0 0 (by norm_num) (by norm_num)
     (by simp only [List.length_replicate]; omega)
     (by intro b hbm
         rw [List.eq_of_mem_replicate hbm]
         norm_num)⟩
